import Mathlib

/-!
Verification of the swift-bridge parsing/IR front end and the `Result`/`Option`
type-bridging engine, as a shallow embedding of
`crates/swift-bridge-ir/src/parse/parse_extern_mod.rs`,
`crates/swift-bridge-ir/src/bridged_type/bridgeable_result.rs` and the
generated-code shapes exercised by
`crates/swift-bridge-ir/src/codegen/codegen_tests/option_codegen_tests.rs`.

Rust `panic!`/`unwrap`/`todo!` sites are modelled as `Except RustPanic`; the
mutable parser state (`errors`, `all_type_declarations`, `functions`,
`maybe_undeclared_types`) is threaded explicitly as a `PState` value.
-/

namespace SwiftBridge

/-- The two recognized ABI names of an extern block (`HostLang` in the source). -/
inductive HostLang
  | rust
  | swift
deriving DecidableEq, Repr

/-- The restricted shapes of type references the parser handles: `T`, `&T` /
`&mut T`, and `*const T` / `*mut T` (the `Type::Path`, `Type::Reference` and
`Type::Ptr` cases of `maybe_push_undeclared_ty`; every other syntactic shape
hits a `todo!` in the source and is outside the declaration grammar). -/
inductive RustTypeRef
  | path (name : String)
  | reference (isMut : Bool) (name : String)
  | ptr (isMut : Bool) (name : String)
deriving DecidableEq, Repr

/-- The name of the referenced type with any `&`/`*` stripped, as produced by
`path.to_token_stream().to_string()` resp. `elem.to_token_stream().to_string()`
in `maybe_push_undeclared_ty`. -/
def RustTypeRef.baseName : RustTypeRef → String
  | .path n => n
  | .reference _ n => n
  | .ptr _ n => n

/-- The full token string of the type reference, as produced by
`ty.to_token_stream().to_string()` (used by the initializer branch of
`get_associated_type`, which stringifies the whole return type). -/
def RustTypeRef.tokenString : RustTypeRef → String
  | .path n => n
  | .reference m n => (if m then "& mut " else "& ") ++ n
  | .ptr m n => (if m then "* mut " else "* const ") ++ n

/-- A function argument: either an implicit receiver (`self`, `&self`,
`&mut self`, i.e. `FnArg::Receiver`) or a typed pattern (`FnArg::Typed`),
which covers both ordinary arguments `x: T` and explicitly typed receivers
`self: T`. -/
inductive FnArg
  | receiver
  | typed (patName : String) (ty : RustTypeRef)
deriving DecidableEq, Repr

/-- `ReturnType` of a function signature: `Default` (no `-> ...`) or a type. -/
inductive ReturnType
  | default
  | ty (t : RustTypeRef)
deriving DecidableEq, Repr

/-- The decoded per-function attribute vocabulary (`FunctionAttributes`): the
attribute parser itself lives in the `function_attributes` submodule, outside
the provided sources, so functions carry their already-decoded attributes. -/
structure FunctionAttributes where
  associated_to : Option String
  is_initializer : Bool
  swift_name : Option String
deriving DecidableEq, Repr

/-- A foreign function declaration (`ForeignItemFn`), restricted to the fields
the parser reads: attributes, inputs and output. -/
structure ForeignItemFn where
  name : String
  attrs : FunctionAttributes
  inputs : List FnArg
  output : ReturnType
deriving DecidableEq, Repr

/-- An item of an extern block: `ForeignItem::Type`, `ForeignItem::Fn`, or any
other foreign item kind (skipped by the parser's catch-all arm). -/
inductive ForeignItem
  | typeDecl (ident : String)
  | fnDecl (f : ForeignItemFn)
  | otherItem
deriving DecidableEq, Repr

/-- `OpaqueForeignType`: a user-declared bridged type, carrying its identifier
and owning language. -/
structure OpaqueForeignType where
  ident : String
  host_lang : HostLang
deriving DecidableEq, Repr

/-- `ForeignBridgedType`: the registry entry for a declared type. -/
inductive ForeignBridgedType
  | Opaque (t : OpaqueForeignType)
deriving DecidableEq, Repr

/-- The structured diagnostics of `ParseError` (source spans dropped; the
payload that identifies the offending name is kept). -/
inductive ParseError
  | abiNameMissing
  | abiNameInvalid (abi_name : String)
  | declaredBuiltInType (ident : String)
  | ambiguousSelf
  | undeclaredType (name : String)
deriving DecidableEq, Repr

/-- `ParsedExternFn`: the IR record appended for each parsed function. -/
structure ParsedExternFn where
  func : ForeignItemFn
  associated_type : Option ForeignBridgedType
  is_initializer : Bool
  host_lang : HostLang
  swift_name_override : Option String
deriving DecidableEq, Repr

/-- One `extern "..."` block (`ItemForeignMod`): optional ABI name plus items. -/
structure ItemForeignMod where
  abiName : Option String
  items : List ForeignItem
deriving DecidableEq, Repr

/-- Insert-with-overwrite into a string-keyed map, the behavior of
`HashMap::insert` / `TypeDeclarations::insert` (one binding per key). -/
def mapInsert {α : Type} (k : String) (v : α) (m : List (String × α)) :
    List (String × α) :=
  (k, v) :: m.filter (fun p => !(p.1 == k))

/-- Lookup in a string-keyed map (`HashMap::get` / `contains_key`). -/
def mapGet {α : Type} (m : List (String × α)) (k : String) : Option α :=
  (m.find? (fun p => p.1 == k)).map (fun p => p.2)

/-- Modelled from the spec: membership in the Built-in Type Catalog
(`BuiltInType::with_str`, whose implementation is outside the provided
sources). The catalog recognizes the primitive type names. -/
def builtInTypeNames : List String :=
  ["u8", "u16", "u32", "u64", "u128", "usize",
   "i8", "i16", "i32", "i64", "i128", "isize",
   "f32", "f64", "bool", "String"]

/-- Modelled from the spec: `BuiltInType::with_str` as a Boolean test. -/
def builtInWithStr (s : String) : Bool := builtInTypeNames.contains s

/-- Modelled from the spec: `BuiltInType::new_with_type`, which recognizes a
referenced type as built-in; references and pointers recurse into their
element, so the test is on the base name. -/
def builtInNewWithType (t : RustTypeRef) : Bool := builtInWithStr t.baseName

/-- The mutable state of `ForeignModParser`: the error collector, the
module-wide type declaration registry, the parsed function records and the
deferred possibly-undeclared type references (name only, spans dropped). -/
structure PState where
  errors : List ParseError
  all_type_declarations : List (String × ForeignBridgedType)
  functions : List ParsedExternFn
  maybe_undeclared_types : List String
deriving DecidableEq, Repr

/-- The state at the start of a module parse: everything empty. -/
def initState : PState := ⟨[], [], [], []⟩

/-- The ways the parsing code can abort by unwinding: `Option::unwrap` on
`None`, an explicit `todo!`, and `syn::Ident::new` receiving an invalid
identifier. -/
inductive RustPanic
  | unwrapNone
  | todoPanic
  | identPanic
deriving DecidableEq, Repr

/-- The comparator passed to `foreign_mod.items.sort_by`: a type declaration
compares `Less` than anything, everything else compares `Greater`. -/
def foreignItemOrd (a _b : ForeignItem) : Ordering :=
  match a with
  | .typeDecl _ => .lt
  | _ => .gt

/-- Whether an item is a type declaration. -/
def isTypeDecl : ForeignItem → Bool
  | .typeDecl _ => true
  | _ => false

/-- One insertion step of the comparison sort modelling `slice::sort_by`: the
element descends past an existing element exactly when the comparator answers
`Greater`. Under `foreignItemOrd` a type declaration therefore stays where it
is inserted and anything else sinks to the end, giving the types-first order
the source's sort establishes. -/
def insertItemSorted (a : ForeignItem) : List ForeignItem → List ForeignItem
  | [] => [a]
  | b :: l =>
      if foreignItemOrd a b = .gt then b :: insertItemSorted a l
      else a :: b :: l

/-- The comparison sort over block items with `foreignItemOrd`, modelling
`foreign_mod.items.sort_by(|a, _b| ...)` (Rust's stable sort; with this
comparator any comparison sort yields a permutation with every type
declaration before every other item, which is all the source relies on). -/
def sortItems : List ForeignItem → List ForeignItem
  | [] => []
  | a :: l => insertItemSorted a (sortItems l)

namespace ForeignModParser

/-- The `None` arm of `get_associated_type` (also reached by recursion when the
first argument is a typed non-`self` pattern): an `associated_to` attribute is
looked up in the module-wide registry with `.unwrap()` (panicking when absent);
an initializer's associated type is inferred from the stringified return type
(`todo!` when the function returns nothing), with a non-panicking `get`. -/
def getAssociatedTypeNoFirst (st : PState) (func : ForeignItemFn)
    (attributes : FunctionAttributes) :
    Except RustPanic (PState × Option ForeignBridgedType) :=
  match attributes.associated_to with
  | some associatedTo =>
      match mapGet st.all_type_declarations associatedTo with
      | some ty => .ok (st, some ty)
      | none => .error .unwrapNone
  | none =>
      if attributes.is_initializer then
        match func.output with
        | .default => .error .todoPanic
        | .ty t => .ok (st, mapGet st.all_type_declarations t.tokenString)
      else
        .ok (st, none)

/-- `ForeignModParser::get_associated_type`: resolve the associated type of a
function from its first argument, its attributes, the block-local type map and
the module-wide registry. An implicit receiver requires exactly one block-local
type (otherwise `AmbiguousSelf` is pushed and `None` returned); a typed `self`
argument is resolved against the module-wide registry with `.unwrap()`
(panicking when the name is not registered, `todo!` for pointer receivers); a
typed non-`self` first argument recurses as if there were no first argument. -/
def get_associated_type (st : PState) (first : Option FnArg)
    (func : ForeignItemFn) (attributes : FunctionAttributes)
    (local_type_declarations : List (String × OpaqueForeignType)) :
    Except RustPanic (PState × Option ForeignBridgedType) :=
  match first with
  | some .receiver =>
      match local_type_declarations with
      | (_, ty) :: [] => .ok (st, some (.Opaque ty))
      | _ => .ok ({ st with errors := st.errors ++ [.ambiguousSelf] }, none)
  | some (.typed patName ty) =>
      if patName = "self" then
        match ty with
        | .ptr _ _ => .error .todoPanic
        | t =>
            match mapGet st.all_type_declarations t.baseName with
            | some found => .ok (st, some found)
            | none => .error .unwrapNone
      else
        getAssociatedTypeNoFirst st func attributes
  | none => getAssociatedTypeNoFirst st func attributes

/-- `ForeignModParser::maybe_push_undeclared_ty`: record the referenced name
for the deferred undeclared-type check when it is neither already registered
nor a built-in. -/
def maybe_push_undeclared_ty (st : PState) (ty : RustTypeRef) : PState :=
  let ty_string := ty.baseName
  if (mapGet st.all_type_declarations ty_string).isNone &&
      !builtInNewWithType ty then
    { st with maybe_undeclared_types := st.maybe_undeclared_types ++ [ty_string] }
  else st

/-- The scan of `func.sig.inputs`: `maybe_push_undeclared_ty` on every typed
argument (receivers are skipped by the `FnArg::Typed` guard). -/
def scanFnArgs (st : PState) (args : List FnArg) : PState :=
  args.foldl
    (fun st arg =>
      match arg with
      | .typed _ ty => maybe_push_undeclared_ty st ty
      | .receiver => st)
    st

/-- The undeclared-reference scan of one function: all typed inputs, then the
return type when present. -/
def scanFnTypes (st : PState) (func : ForeignItemFn) : PState :=
  match func.output with
  | .ty t => maybe_push_undeclared_ty (scanFnArgs st func.inputs) t
  | .default => scanFnArgs st func.inputs

/-- Processing of one item of the (already reordered) block body: a type
declaration pushes `DeclaredBuiltInType` when the name collides with the
catalog and then registers the type in both the module-wide registry and the
block-local map; a function declaration scans for undeclared references,
resolves its associated type and appends a `ParsedExternFn`; other foreign
items are skipped. -/
def processItem (host_lang : HostLang)
    (acc : PState × List (String × OpaqueForeignType)) (item : ForeignItem) :
    Except RustPanic (PState × List (String × OpaqueForeignType)) :=
  match item with
  | .typeDecl ty_name =>
      let st := acc.1
      let st :=
        if builtInWithStr ty_name then
          { st with errors := st.errors ++ [.declaredBuiltInType ty_name] }
        else st
      let foreign_type : OpaqueForeignType := ⟨ty_name, host_lang⟩
      let st :=
        { st with
          all_type_declarations :=
            mapInsert ty_name (.Opaque foreign_type) st.all_type_declarations }
      .ok (st, mapInsert ty_name foreign_type acc.2)
  | .fnDecl func =>
      let st := scanFnTypes acc.1 func
      match get_associated_type st func.inputs.head? func func.attrs acc.2 with
      | .error e => .error e
      | .ok (st, associated_type) =>
          .ok
            ({ st with
                functions := st.functions ++
                  [⟨func, associated_type, func.attrs.is_initializer, host_lang,
                    func.attrs.swift_name⟩] },
              acc.2)
  | .otherItem => .ok acc

/-- The item loop of `ForeignModParser::parse`, threading the parser state and
the block-local type map. -/
def processItems (host_lang : HostLang)
    (acc : PState × List (String × OpaqueForeignType)) :
    List ForeignItem → Except RustPanic (PState × List (String × OpaqueForeignType))
  | [] => .ok acc
  | item :: rest =>
      match processItem host_lang acc item with
      | .error e => .error e
      | .ok acc2 => processItems host_lang acc2 rest

/-- The body of `ForeignModParser::parse` after ABI dispatch: sort the items
(types first), then process them with a fresh block-local type map. -/
def parseItemsWithLang (st : PState) (host_lang : HostLang)
    (items : List ForeignItem) : Except RustPanic PState :=
  match processItems host_lang (st, []) (sortItems items) with
  | .error e => .error e
  | .ok acc => .ok acc.1

/-- `ForeignModParser::parse`: reject a block without an ABI name
(`AbiNameMissing`) or with an unrecognized one (`AbiNameInvalid`), returning
`Ok` so the rest of the module still parses; otherwise process the block's
items under the recognized host language. -/
def parse (st : PState) (foreign_mod : ItemForeignMod) : Except RustPanic PState :=
  match foreign_mod.abiName with
  | none => .ok { st with errors := st.errors ++ [.abiNameMissing] }
  | some abi_name =>
      match abi_name with
      | "Rust" => parseItemsWithLang st .rust foreign_mod.items
      | "Swift" => parseItemsWithLang st .swift foreign_mod.items
      | other => .ok { st with errors := st.errors ++ [.abiNameInvalid other] }

end ForeignModParser

/-- Modelled from the spec: the module-level driver (the `SwiftBridgeModule`
parse, not under the provided sources) parses the extern blocks of a module in
order, sharing one registry and one error collector across all blocks. -/
def parseBlocks (st : PState) : List ItemForeignMod → Except RustPanic PState
  | [] => .ok st
  | b :: bs =>
      match ForeignModParser.parse st b with
      | .error e => .error e
      | .ok st2 => parseBlocks st2 bs

/-- Modelled from the spec: after all blocks are parsed, each recorded
possibly-undeclared reference whose name still resolves to no entry of the
module-wide registry yields one `UndeclaredType` diagnostic (this deferred
check is what lets a function reference a type declared in a later block). -/
def finalUndeclaredPass (st : PState) : PState :=
  { st with
    errors := st.errors ++
      (st.maybe_undeclared_types.filter
        (fun n => (mapGet st.all_type_declarations n).isNone)).map
        ParseError.undeclaredType }

/-- Modelled from the spec: one module-parse invocation — parse every block in
order, then run the deferred undeclared-type check. -/
def parseModule (blocks : List ItemForeignMod) : Except RustPanic PState :=
  match parseBlocks initState blocks with
  | .error e => .error e
  | .ok st => .ok (finalUndeclaredPass st)

/-- The type names referenced by one function declaration: the base name of
every typed input, then of the return type — exactly the references scanned by
`maybe_push_undeclared_ty`. -/
def fnRefs (f : ForeignItemFn) : List String :=
  (f.inputs.filterMap
    (fun a =>
      match a with
      | .typed _ ty => some ty.baseName
      | .receiver => none)) ++
  (match f.output with
    | .ty t => [t.baseName]
    | .default => [])

/-- The type names referenced by one block item (only functions reference). -/
def itemRefs : ForeignItem → List String
  | .fnDecl f => fnRefs f
  | _ => []

/-- All type names referenced by the items of one block, in source order. -/
def blockRefs (items : List ForeignItem) : List String :=
  (items.map itemRefs).flatten

/-- The references contributed by one block to the module-wide undeclared
check: blocks rejected for a missing or invalid ABI name contribute none. -/
def modBlockRefs (b : ItemForeignMod) : List String :=
  match b.abiName with
  | some "Rust" => blockRefs b.items
  | some "Swift" => blockRefs b.items
  | _ => []

/-- All type names referenced by a module's blocks, in source order. -/
def moduleRefs (blocks : List ItemForeignMod) : List String :=
  (blocks.map modBlockRefs).flatten

/-- Whether a diagnostic is an `UndeclaredType` diagnostic. -/
def isUndeclaredErr : ParseError → Bool
  | .undeclaredType _ => true
  | _ => false

/-- The condition under which `maybe_push_undeclared_ty` records a name,
relative to a given registry. -/
def pushCond (reg : List (String × ForeignBridgedType)) (n : String) : Bool :=
  (mapGet reg n).isNone && !builtInWithStr n

/-- The property established by the reordering pass: some prefix of the list
is all type declarations and the rest contains none. -/
def typesBeforeRest (l : List ForeignItem) : Prop :=
  ∃ ts fs, l = ts ++ fs ∧ (∀ x ∈ ts, isTypeDecl x = true) ∧
    (∀ x ∈ fs, isTypeDecl x = false)

/-- A parser state whose only content is the given registry (used to factor
out the frame reasoning: errors, functions and deferred references are
append-only and never read back during parsing). -/
def zeroState (reg : List (String × ForeignBridgedType)) : PState :=
  ⟨[], reg, [], []⟩

/-- Recombine a base state with the output of a parse run started from
`zeroState`: appended fields concatenate, the registry is taken from the run. -/
def combineState (st st2 : PState) : PState :=
  ⟨st.errors ++ st2.errors, st2.all_type_declarations,
   st.functions ++ st2.functions,
   st.maybe_undeclared_types ++ st2.maybe_undeclared_types⟩

/-- Registering a list of type names in the module-wide registry, in order. -/
def insertAllGlobal (host_lang : HostLang)
    (m : List (String × ForeignBridgedType)) (tys : List String) :
    List (String × ForeignBridgedType) :=
  tys.foldl (fun m t => mapInsert t (.Opaque ⟨t, host_lang⟩) m) m

/-- Registering a list of type names in the block-local map, in order. -/
def insertAllLocal (host_lang : HostLang)
    (m : List (String × OpaqueForeignType)) (tys : List String) :
    List (String × OpaqueForeignType) :=
  tys.foldl (fun m t => mapInsert t ⟨t, host_lang⟩ m) m

/-- The base names of the typed arguments of an argument list, the references
scanned by the input loop. -/
def argRefs (args : List FnArg) : List String :=
  args.filterMap
    (fun a =>
      match a with
      | .typed _ ty => some ty.baseName
      | .receiver => none)

/-! ### The `Result<T, E>` bridging engine (`bridgeable_result.rs`) -/

/-- The nested bridgeable shapes exercised by the `Result` bridging claims:
the no-value shape `()` and a user-declared handle type. -/
inductive BridgedTypeShape
  | null
  | Opaque (name : String)
deriving DecidableEq, Repr

/-- `to_rust_type_path` of a nested shape: the token string of its Rust type
(`()` for the no-value shape, the identifier for a handle type). -/
def BridgedTypeShape.to_rust_type_path : BridgedTypeShape → String
  | .null => "()"
  | .Opaque n => n

/-- `BuiltInResult`: the `Result<T, E>` bridging descriptor, owning its two
branch descriptors. -/
structure BuiltInResult where
  ok_ty : BridgedTypeShape
  err_ty : BridgedTypeShape
deriving DecidableEq, Repr

/-- Whether a string is a valid Rust identifier (the acceptance condition of
`syn::Ident::new`, which panics otherwise): nonempty, starting with a letter
or underscore, containing only alphanumerics and underscores. -/
def isValidRustIdent (s : String) : Bool :=
  match s.data with
  | [] => false
  | c :: cs => (c.isAlpha || c == '_') && cs.all (fun d => d.isAlphanum || d == '_')

/-- The shapes of generated Rust code fragments produced by the `Result`
bridging engine, kept structural (a shallow syntax of the emitted tokens). -/
inductive GenRustExpr
  | matchResultExpr (scrutinee : String) (okArm errArm : GenRustExpr)
  | resultEnumOk (type_name : String) (payload : GenRustExpr)
  | resultEnumErr (type_name : String) (payload : GenRustExpr)
  | binding (name : String)
  | ifIsOk (scrutinee : String) (thenBranch elseBranch : GenRustExpr)
  | stdResultOk (e : GenRustExpr)
  | stdResultErr (e : GenRustExpr)
  | nestedOkConversion (ty : BridgedTypeShape) (scrutinee : String)
  | nestedErrConversion (ty : BridgedTypeShape) (scrutinee : String)
deriving DecidableEq, Repr

/-- The identifier text built by `convert_rust_expression_to_ffi_type`:
`format!("Result{}{}", quote!(#ok), quote!(#err))` over the branch type
paths. -/
def BuiltInResult.ffiEnumIdentName (r : BuiltInResult) : String :=
  "Result" ++ r.ok_ty.to_rust_type_path ++ r.err_ty.to_rust_type_path

/-- `BuiltInResult::convert_rust_expression_to_ffi_type`: the outbound (host
value to ABI value) conversion. The source calls `syn::Ident::new` on the
concatenated branch type paths — which panics whenever that text is not a
valid identifier — and then emits a match whose two arms wrap the raw bound
value in `#swift_bridge_path::result::<#type_name>::Ok` / `::Err`, applying no
nested branch conversion and setting no `is_ok` discriminant field. -/
def BuiltInResult.convert_rust_expression_to_ffi_type (r : BuiltInResult)
    (expression : String) : Except RustPanic GenRustExpr :=
  let type_name := r.ffiEnumIdentName
  if isValidRustIdent type_name then
    .ok (.matchResultExpr expression
      (.resultEnumOk type_name (.binding "val"))
      (.resultEnumErr type_name (.binding "err")))
  else .error .identPanic

/-- `BuiltInResult::convert_ffi_value_to_rust_value`: the inbound (ABI value
to host value) conversion — a single dispatch on the `is_ok` field of the ABI
struct, applying the nested Ok resp. Err conversion of the branch types. -/
def BuiltInResult.convert_ffi_value_to_rust_value (r : BuiltInResult)
    (expression : String) : GenRustExpr :=
  .ifIsOk expression
    (.stdResultOk (.nestedOkConversion r.ok_ty expression))
    (.stdResultErr (.nestedErrConversion r.err_ty expression))

/-! ### The `Option<T>` bridging side channel (`option_codegen_tests.rs`) -/

/-- The observable steps of the generated host-side stub for a function
returning `Option<T>`: writing the side-channel presence flag
(`swift_bridge::option::_set_option_return`) and returning the payload
reference (`none` standing for the null pointer). -/
inductive OptionStubStep (T : Type)
  | setOptionReturn (flag : Bool)
  | returnValue (payload : Option T)

/-- Modelled from the spec: the generated host-side stub for a bridged
function returning `Option<T>` (the code generator itself is outside the
provided sources; this transcribes the expected generated Rust of
`extern_rust_fn_return_option_string`): on `Some` it sets the side-channel
flag to `true` and returns the boxed payload, on `None` it sets the flag to
`false` and returns a null reference — in both branches the flag write
precedes the return. -/
def optionRustStub {T : Type} (v : Option T) : List (OptionStubStep T) :=
  match v with
  | some val => [.setOptionReturn true, .returnValue (some val)]
  | none => [.setOptionReturn false, .returnValue none]

/-- The side-channel flag left behind by a stub run (the value read by
`_get_option_return`). -/
def stubFinalFlag {T : Type} (steps : List (OptionStubStep T)) : Bool :=
  (steps.foldl
    (fun acc s =>
      match s with
      | .setOptionReturn b => some b
      | .returnValue _ => acc)
    none).getD false

/-- The payload reference returned by a stub run. -/
def stubReturnedPayload {T : Type} (steps : List (OptionStubStep T)) : Option T :=
  steps.foldl
    (fun acc s =>
      match s with
      | .returnValue p => p
      | .setOptionReturn _ => acc)
    none

/-- Modelled from the spec: the generated client-side (Swift) wrapper for a
function returning `Option<T>`, transcribed from the expected generated Swift
of `extern_rust_fn_return_option_string`: call, then immediately query the
side channel; when the flag is set, force-unwrap the returned reference (a
panic when it is nil) and wrap it, otherwise return nil. -/
def optionSwiftWrapper {T : Type} (callResult : Option T) (flagQuery : Bool) :
    Except RustPanic (Option T) :=
  if flagQuery then
    match callResult with
    | some v => .ok (some v)
    | none => .error .unwrapNone
  else .ok none

/-- The round trip through the generated pair: run the host stub, then the
client wrapper on the returned payload and the queried side channel. -/
def bridgedOptionReturn {T : Type} (v : Option T) : Except RustPanic (Option T) :=
  let steps := optionRustStub v
  optionSwiftWrapper (stubReturnedPayload steps) (stubFinalFlag steps)

/-- The pure core of `getAssociatedTypeNoFirst`: its result depends only on
the registry, the function and the attributes (it never touches the rest of
the parser state). -/
def gatCoreNoFirst (reg : List (String × ForeignBridgedType))
    (func : ForeignItemFn) (attributes : FunctionAttributes) :
    Except RustPanic (Option ForeignBridgedType) :=
  match attributes.associated_to with
  | some associatedTo =>
      match mapGet reg associatedTo with
      | some ty => .ok (some ty)
      | none => .error .unwrapNone
  | none =>
      if attributes.is_initializer then
        match func.output with
        | .default => .error .todoPanic
        | .ty t => .ok (mapGet reg t.tokenString)
      else
        .ok none

/-- The pure core of `get_associated_type`: the resolved associated type plus
a flag recording whether an `AmbiguousSelf` diagnostic is pushed. -/
def gatCore (reg : List (String × ForeignBridgedType)) (first : Option FnArg)
    (func : ForeignItemFn) (attributes : FunctionAttributes)
    (loc : List (String × OpaqueForeignType)) :
    Except RustPanic (Bool × Option ForeignBridgedType) :=
  match first with
  | some .receiver =>
      match loc with
      | (_, ty) :: [] => .ok (false, some (.Opaque ty))
      | _ => .ok (true, none)
  | some (.typed patName ty) =>
      if patName = "self" then
        match ty with
        | .ptr _ _ => .error .todoPanic
        | t =>
            match mapGet reg t.baseName with
            | some found => .ok (false, some found)
            | none => .error .unwrapNone
      else
        (gatCoreNoFirst reg func attributes).map (fun a => (false, a))
  | none => (gatCoreNoFirst reg func attributes).map (fun a => (false, a))

/-! ### Map lemmas -/

theorem mapGet_insert_self {α : Type} (k : String) (v : α) (m : List (String × α)) :
    mapGet (mapInsert k v m) k = some v := by
  simp [mapGet, mapInsert, List.find?]

theorem find?_key_filter {α : Type} (m : List (String × α)) (k k' : String)
    (h : k' ≠ k) :
    (m.filter (fun p => !(p.1 == k))).find? (fun p => p.1 == k') =
      m.find? (fun p => p.1 == k') := by
  induction m with
  | nil => rfl
  | cons p m ih =>
      by_cases hk : p.1 = k
      · have h1 : (p.1 == k) = true := by simp [hk]
        have h2 : (p.1 == k') = false := by simp [hk]; exact fun hc => h hc.symm
        simp [List.filter, List.find?, h1, h2, ih]
      · have h1 : (p.1 == k) = false := by simp [hk]
        by_cases hk' : p.1 = k'
        · have h2 : (p.1 == k') = true := by simp [hk']
          simp [List.filter, List.find?, h1, h2]
        · have h2 : (p.1 == k') = false := by simp [hk']
          simp [List.filter, List.find?, h1, h2, ih]

theorem mapGet_insert_ne {α : Type} (k : String) (v : α) (m : List (String × α))
    (k' : String) (h : k' ≠ k) :
    mapGet (mapInsert k v m) k' = mapGet m k' := by
  have h2 : (k == k') = false := by simp; exact fun hc => h hc.symm
  simp [mapGet, mapInsert, List.find?, h2, find?_key_filter m k k' h]

theorem mapGet_insert_isSome {α : Type} (k : String) (v : α)
    (m : List (String × α)) (n : String) (h : (mapGet m n).isSome = true) :
    (mapGet (mapInsert k v m) n).isSome = true := by
  by_cases hn : n = k
  · subst hn
    simp [mapGet_insert_self]
  · rw [mapGet_insert_ne k v m n hn]
    exact h

theorem mapInsert_length {α : Type} (k : String) (v : α) (m : List (String × α))
    (h : mapGet m k = none) : (mapInsert k v m).length = m.length + 1 := by
  have h' : m.find? (fun p => p.1 == k) = none := by
    cases hf : m.find? (fun p => p.1 == k) with
    | none => rfl
    | some q => simp [mapGet, hf] at h
  have hfil : m.filter (fun p => !(p.1 == k)) = m := by
    apply List.filter_eq_self.mpr
    intro p hp
    simpa using List.find?_eq_none.mp h' p hp
  simp [mapInsert, hfil]

/-! ### Sort lemmas -/

theorem insertItemSorted_perm (a : ForeignItem) (l : List ForeignItem) :
    List.Perm (insertItemSorted a l) (a :: l) := by
  induction l with
  | nil => rfl
  | cons b l ih =>
      by_cases h : foreignItemOrd a b = .gt
      · simp only [insertItemSorted, h, if_pos]
        exact (ih.cons b).trans (List.Perm.swap a b l)
      · simp only [insertItemSorted, h, if_neg, not_false_iff]
        rfl

theorem sortItems_perm (l : List ForeignItem) : List.Perm (sortItems l) l := by
  induction l with
  | nil => rfl
  | cons a l ih =>
      exact (insertItemSorted_perm a (sortItems l)).trans (ih.cons a)

theorem insertItemSorted_typeDecl (n : String) (l : List ForeignItem) :
    insertItemSorted (.typeDecl n) l = .typeDecl n :: l := by
  cases l <;> simp [insertItemSorted, foreignItemOrd]

theorem insertItemSorted_notType (a : ForeignItem) (l : List ForeignItem)
    (h : isTypeDecl a = false) : insertItemSorted a l = l ++ [a] := by
  have hgt : ∀ b, foreignItemOrd a b = .gt := by
    intro b
    cases a with
    | typeDecl n => simp [isTypeDecl] at h
    | fnDecl f => rfl
    | otherItem => rfl
  induction l with
  | nil => rfl
  | cons b l ih => simp [insertItemSorted, hgt b, ih]

theorem sortItems_decomp (l : List ForeignItem) :
    ∃ ts fs, sortItems l = ts ++ fs ∧ (∀ x ∈ ts, isTypeDecl x = true) ∧
      (∀ x ∈ fs, isTypeDecl x = false) ∧ List.Perm (ts ++ fs) l := by
  induction l with
  | nil => exact ⟨[], [], rfl, by simp, by simp, by rfl⟩
  | cons a l ih =>
      obtain ⟨ts, fs, heq, hts, hfs, hperm⟩ := ih
      by_cases ha : isTypeDecl a = true
      · obtain ⟨n, rfl⟩ : ∃ n, a = .typeDecl n := by
          cases a with
          | typeDecl n => exact ⟨n, rfl⟩
          | fnDecl f => simp [isTypeDecl] at ha
          | otherItem => simp [isTypeDecl] at ha
        refine ⟨.typeDecl n :: ts, fs, ?_, ?_, hfs, ?_⟩
        · simp [sortItems, heq, insertItemSorted_typeDecl]
        · intro x hx
          rcases List.mem_cons.mp hx with rfl | hx
          · simp [isTypeDecl]
          · exact hts x hx
        · exact hperm.cons _
      · have ha' : isTypeDecl a = false := by simpa using ha
        refine ⟨ts, fs ++ [a], ?_, hts, ?_, ?_⟩
        · simp [sortItems, heq, insertItemSorted_notType a _ ha']
        · intro x hx
          rcases List.mem_append.mp hx with hx | hx
          · exact hfs x hx
          · simp at hx
            subst hx
            exact ha'
        · have h1 : List.Perm ((ts ++ fs) ++ [a]) (a :: (ts ++ fs)) := by
            simpa using (@List.perm_middle ForeignItem a (ts ++ fs) [])
          rw [← List.append_assoc]
          exact h1.trans (hperm.cons a)

theorem sortItems_typesThenFn (tys : List String) (f : ForeignItemFn) :
    sortItems (tys.map ForeignItem.typeDecl ++ [ForeignItem.fnDecl f]) =
      tys.map ForeignItem.typeDecl ++ [ForeignItem.fnDecl f] := by
  induction tys with
  | nil => rfl
  | cons t tys ih => simp [sortItems, ih, insertItemSorted_typeDecl]

/-! ### Scan lemmas -/

theorem maybe_push_eq (st : PState) (ty : RustTypeRef) :
    ForeignModParser.maybe_push_undeclared_ty st ty =
      { st with
        maybe_undeclared_types := st.maybe_undeclared_types ++
          (if pushCond st.all_type_declarations ty.baseName then [ty.baseName]
            else []) } := by
  by_cases h : pushCond st.all_type_declarations ty.baseName
  · simp only [ForeignModParser.maybe_push_undeclared_ty]
    rw [if_pos (by simpa [pushCond, builtInNewWithType] using h), if_pos h]
  · simp only [ForeignModParser.maybe_push_undeclared_ty]
    rw [if_neg (by simpa [pushCond, builtInNewWithType] using h), if_neg h]
    simp

theorem scanFnArgs_spec (args : List FnArg) (st : PState) :
    ForeignModParser.scanFnArgs st args =
      { st with
        maybe_undeclared_types := st.maybe_undeclared_types ++
          (argRefs args).filter (pushCond st.all_type_declarations) } := by
  induction args generalizing st with
  | nil => simp [ForeignModParser.scanFnArgs, argRefs]
  | cons a args ih =>
      cases a with
      | receiver =>
          simp only [ForeignModParser.scanFnArgs, List.foldl_cons] at ih ⊢
          rw [ih]
          simp [argRefs]
      | typed p ty =>
          simp only [ForeignModParser.scanFnArgs, List.foldl_cons] at ih ⊢
          rw [maybe_push_eq, ih]
          simp [argRefs, List.filter]
          by_cases h : pushCond st.all_type_declarations ty.baseName
          · simp [h]
          · simp [h]

theorem scanFnTypes_spec (st : PState) (f : ForeignItemFn) :
    ForeignModParser.scanFnTypes st f =
      { st with
        maybe_undeclared_types := st.maybe_undeclared_types ++
          (fnRefs f).filter (pushCond st.all_type_declarations) } := by
  unfold ForeignModParser.scanFnTypes
  cases ho : f.output with
  | default =>
      rw [scanFnArgs_spec]
      simp [fnRefs, argRefs, ho]
  | ty t =>
      simp only [scanFnArgs_spec, maybe_push_eq]
      simp only [fnRefs, argRefs, ho, List.filter_append]
      by_cases h : pushCond st.all_type_declarations t.baseName
      · simp [h, List.filter]
      · simp [h, List.filter]

/-! ### `get_associated_type` characterization -/

theorem getAssociatedTypeNoFirst_eq_core (st : PState) (func : ForeignItemFn)
    (attributes : FunctionAttributes) :
    ForeignModParser.getAssociatedTypeNoFirst st func attributes =
      (gatCoreNoFirst st.all_type_declarations func attributes).map
        (fun a => (st, a)) := by
  unfold ForeignModParser.getAssociatedTypeNoFirst gatCoreNoFirst
  cases hA : attributes.associated_to with
  | some x =>
      simp only [hA]
      cases hG : mapGet st.all_type_declarations x <;> simp [hG, Except.map]
  | none =>
      simp only [hA]
      by_cases hI : attributes.is_initializer
      · simp only [hI, if_pos]
        cases func.output <;> simp [Except.map]
      · simp only [hI, if_neg, not_false_iff]
        simp [Except.map]

theorem get_associated_type_eq_core (st : PState) (first : Option FnArg)
    (func : ForeignItemFn) (attributes : FunctionAttributes)
    (loc : List (String × OpaqueForeignType)) :
    ForeignModParser.get_associated_type st first func attributes loc =
      (gatCore st.all_type_declarations first func attributes loc).map
        (fun p =>
          ({ st with
              errors := st.errors ++ (if p.1 then [.ambiguousSelf] else []) },
            p.2)) := by
  cases first with
  | none =>
      unfold ForeignModParser.get_associated_type gatCore
      rw [getAssociatedTypeNoFirst_eq_core]
      cases gatCoreNoFirst st.all_type_declarations func attributes <;>
        simp [Except.map]
  | some arg =>
      cases arg with
      | receiver =>
          unfold ForeignModParser.get_associated_type gatCore
          match loc with
          | [] => simp [Except.map]
          | (k, ty) :: [] => simp [Except.map]
          | (k, ty) :: q :: rest => simp [Except.map]
      | typed patName ty =>
          unfold ForeignModParser.get_associated_type gatCore
          by_cases hp : patName = "self"
          · simp only [hp, if_pos]
            cases ty with
            | path n =>
                cases hG : mapGet st.all_type_declarations n <;>
                  simp [RustTypeRef.baseName, hG, Except.map]
            | reference m n =>
                cases hG : mapGet st.all_type_declarations n <;>
                  simp [RustTypeRef.baseName, hG, Except.map]
            | ptr m n => rfl
          · simp only [hp, if_neg, not_false_iff]
            rw [getAssociatedTypeNoFirst_eq_core]
            cases gatCoreNoFirst st.all_type_declarations func attributes <;>
              simp [Except.map]

/-! ### `processItem` characterizations -/

theorem processItem_typeDecl (lang : HostLang) (st : PState)
    (loc : List (String × OpaqueForeignType)) (n : String) :
    ForeignModParser.processItem lang (st, loc) (.typeDecl n) =
      .ok
        ({ st with
            errors := st.errors ++
              (if builtInWithStr n then [.declaredBuiltInType n] else []),
            all_type_declarations :=
              mapInsert n (.Opaque ⟨n, lang⟩) st.all_type_declarations },
          mapInsert n ⟨n, lang⟩ loc) := by
  by_cases h : builtInWithStr n <;> simp [ForeignModParser.processItem, h]

theorem processItem_fnDecl (lang : HostLang) (st : PState)
    (loc : List (String × OpaqueForeignType)) (f : ForeignItemFn) :
    ForeignModParser.processItem lang (st, loc) (.fnDecl f) =
      (gatCore st.all_type_declarations f.inputs.head? f f.attrs loc).map
        (fun p =>
          ({ st with
              errors := st.errors ++ (if p.1 then [.ambiguousSelf] else []),
              maybe_undeclared_types := st.maybe_undeclared_types ++
                (fnRefs f).filter (pushCond st.all_type_declarations),
              functions := st.functions ++
                [⟨f, p.2, f.attrs.is_initializer, lang, f.attrs.swift_name⟩] },
            loc)) := by
  simp only [ForeignModParser.processItem]
  rw [scanFnTypes_spec, get_associated_type_eq_core]
  cases hG : gatCore st.all_type_declarations f.inputs.head? f f.attrs loc with
  | error e => simp [Except.map]
  | ok p => simp [Except.map]

theorem processItem_otherItem (lang : HostLang) (st : PState)
    (loc : List (String × OpaqueForeignType)) :
    ForeignModParser.processItem lang (st, loc) .otherItem = .ok (st, loc) := rfl

/-! ### `processItems` lemmas -/

theorem processItems_append (l1 l2 : List ForeignItem) (lang : HostLang)
    (acc : PState × List (String × OpaqueForeignType)) :
    ForeignModParser.processItems lang acc (l1 ++ l2) =
      (match ForeignModParser.processItems lang acc l1 with
        | .error e => .error e
        | .ok acc1 => ForeignModParser.processItems lang acc1 l2) := by
  induction l1 generalizing acc with
  | nil => simp [ForeignModParser.processItems]
  | cons a l1 ih =>
      simp only [List.cons_append, ForeignModParser.processItems]
      cases ForeignModParser.processItem lang acc a with
      | error e => rfl
      | ok acc2 => exact ih acc2

theorem processItems_typeDecls (tys : List String) (lang : HostLang)
    (st : PState) (loc : List (String × OpaqueForeignType)) :
    ForeignModParser.processItems lang (st, loc) (tys.map .typeDecl) =
      .ok
        ({ st with
            errors := st.errors ++
              (tys.filter builtInWithStr).map .declaredBuiltInType,
            all_type_declarations :=
              insertAllGlobal lang st.all_type_declarations tys },
          insertAllLocal lang loc tys) := by
  induction tys generalizing st loc with
  | nil => simp [ForeignModParser.processItems, insertAllGlobal, insertAllLocal]
  | cons t tys ih =>
      simp only [List.map_cons, ForeignModParser.processItems,
        processItem_typeDecl]
      rw [ih]
      by_cases h : builtInWithStr t
      · simp [h, insertAllGlobal, insertAllLocal, List.filter]
      · simp [h, insertAllGlobal, insertAllLocal, List.filter]

/-! ### Frame lemmas: errors, functions and deferred references are
append-only and never read back, so a parse run factors through a run from
`zeroState`. -/

theorem combineState_zero (st : PState) :
    combineState st (zeroState st.all_type_declarations) = st := by
  simp [combineState, zeroState]

theorem combineState_assoc (st u w : PState) :
    combineState st (combineState u w) = combineState (combineState st u) w := by
  simp [combineState]

theorem processItem_frame (lang : HostLang) (st : PState)
    (loc : List (String × OpaqueForeignType)) (it : ForeignItem) :
    ForeignModParser.processItem lang (st, loc) it =
      (ForeignModParser.processItem lang
          (zeroState st.all_type_declarations, loc) it).map
        (fun acc => (combineState st acc.1, acc.2)) := by
  cases it with
  | typeDecl n =>
      rw [processItem_typeDecl, processItem_typeDecl]
      simp [Except.map, combineState, zeroState]
  | fnDecl f =>
      rw [processItem_fnDecl, processItem_fnDecl]
      cases hG : gatCore st.all_type_declarations f.inputs.head? f f.attrs loc with
      | error e => simp [zeroState] at hG ⊢; simp [hG, Except.map]
      | ok p => simp [zeroState] at hG ⊢; simp [hG, Except.map, combineState]
  | otherItem =>
      rw [processItem_otherItem, processItem_otherItem]
      simp [Except.map, combineState_zero]

theorem processItems_frame (items : List ForeignItem) (lang : HostLang)
    (st : PState) (loc : List (String × OpaqueForeignType)) :
    ForeignModParser.processItems lang (st, loc) items =
      (ForeignModParser.processItems lang
          (zeroState st.all_type_declarations, loc) items).map
        (fun acc => (combineState st acc.1, acc.2)) := by
  induction items generalizing st loc with
  | nil => simp [ForeignModParser.processItems, Except.map, combineState_zero]
  | cons it rest ih =>
      simp only [ForeignModParser.processItems]
      rw [processItem_frame]
      cases hB : ForeignModParser.processItem lang
          (zeroState st.all_type_declarations, loc) it with
      | error e => simp [Except.map]
      | ok acc =>
          obtain ⟨u, loc2⟩ := acc
          simp only [Except.map]
          have hreg : (combineState st u).all_type_declarations =
              u.all_type_declarations := rfl
          rw [ih (combineState st u) loc2, hreg]
          rw [ih u loc2]
          cases hX : ForeignModParser.processItems lang
              (zeroState u.all_type_declarations, loc2) rest with
          | error e => simp [Except.map]
          | ok accw =>
              obtain ⟨w, loc3⟩ := accw
              simp [Except.map, combineState_assoc]

/-! ### `parse` / `parseBlocks` lemmas -/

theorem parse_abiMissing (st : PState) (items : List ForeignItem) :
    ForeignModParser.parse st ⟨none, items⟩ =
      .ok { st with errors := st.errors ++ [.abiNameMissing] } := rfl

theorem parseItemsWithLang_frame (st : PState) (lang : HostLang)
    (items : List ForeignItem) :
    ForeignModParser.parseItemsWithLang st lang items =
      (ForeignModParser.parseItemsWithLang
          (zeroState st.all_type_declarations) lang items).map (combineState st) := by
  unfold ForeignModParser.parseItemsWithLang
  rw [processItems_frame]
  cases ForeignModParser.processItems lang
      (zeroState st.all_type_declarations, []) (sortItems items) with
  | error e => simp [Except.map]
  | ok acc => simp [Except.map]

theorem parse_frame (st : PState) (b : ItemForeignMod) :
    ForeignModParser.parse st b =
      (ForeignModParser.parse (zeroState st.all_type_declarations) b).map
        (combineState st) := by
  cases hA : b.abiName with
  | none => simp [ForeignModParser.parse, hA, Except.map, combineState, zeroState]
  | some name =>
      simp only [ForeignModParser.parse, hA]
      split
      · exact parseItemsWithLang_frame st .rust b.items
      · exact parseItemsWithLang_frame st .swift b.items
      · simp [Except.map, combineState, zeroState]

theorem parseBlocks_append (bs1 bs2 : List ItemForeignMod) (st : PState) :
    parseBlocks st (bs1 ++ bs2) =
      (match parseBlocks st bs1 with
        | .error e => .error e
        | .ok s1 => parseBlocks s1 bs2) := by
  induction bs1 generalizing st with
  | nil => simp [parseBlocks]
  | cons b bs1 ih =>
      simp only [List.cons_append, parseBlocks]
      cases ForeignModParser.parse st b with
      | error e => rfl
      | ok s1 => exact ih s1

theorem parseBlocks_append_ok (bs1 bs2 : List ItemForeignMod) (st s1 : PState)
    (h : parseBlocks st bs1 = .ok s1) :
    parseBlocks st (bs1 ++ bs2) = parseBlocks s1 bs2 := by
  rw [parseBlocks_append, h]

theorem parseBlocks_frame (bs : List ItemForeignMod) (st : PState) :
    parseBlocks st bs =
      (parseBlocks (zeroState st.all_type_declarations) bs).map
        (combineState st) := by
  induction bs generalizing st with
  | nil => simp [parseBlocks, Except.map, combineState_zero]
  | cons b bs ih =>
      simp only [parseBlocks]
      rw [parse_frame]
      cases hB : ForeignModParser.parse
          (zeroState st.all_type_declarations) b with
      | error e => simp [Except.map]
      | ok u =>
          simp only [Except.map]
          have hreg : (combineState st u).all_type_declarations =
              u.all_type_declarations := rfl
          rw [ih (combineState st u), hreg, ih u]
          cases hX : parseBlocks (zeroState u.all_type_declarations) bs with
          | error e => simp [Except.map]
          | ok w => simp [Except.map, combineState_assoc]

/-! ### Small diagnostic-kind lemmas -/

theorem amb_notMem_map_undeclared (l : List String) :
    ParseError.ambiguousSelf ∉ l.map ParseError.undeclaredType := by
  intro h
  obtain ⟨n, _, hn⟩ := List.mem_map.mp h
  exact ParseError.noConfusion hn

theorem amb_notMem_map_declared (l : List String) :
    ParseError.ambiguousSelf ∉ l.map ParseError.declaredBuiltInType := by
  intro h
  obtain ⟨n, _, hn⟩ := List.mem_map.mp h
  exact ParseError.noConfusion hn

theorem count_amb_map_undeclared (l : List String) :
    (l.map ParseError.undeclaredType).count ParseError.ambiguousSelf = 0 :=
  List.count_eq_zero.mpr (amb_notMem_map_undeclared l)

theorem count_amb_map_declared (l : List String) :
    (l.map ParseError.declaredBuiltInType).count ParseError.ambiguousSelf = 0 :=
  List.count_eq_zero.mpr (amb_notMem_map_declared l)

theorem insertAllLocal_length (lang : HostLang) (tys : List String)
    (m : List (String × OpaqueForeignType)) (hnd : tys.Nodup)
    (hfresh : ∀ t ∈ tys, mapGet m t = none) :
    (insertAllLocal lang m tys).length = m.length + tys.length := by
  induction tys generalizing m with
  | nil => simp [insertAllLocal]
  | cons t tys ih =>
      have hstep : insertAllLocal lang m (t :: tys) =
          insertAllLocal lang (mapInsert t ⟨t, lang⟩ m) tys := rfl
      rw [hstep]
      have hnd' : tys.Nodup := hnd.of_cons
      have hmem : t ∉ tys := by
        intro hc
        exact (List.nodup_cons.mp hnd).1 hc
      have hfresh' : ∀ t' ∈ tys, mapGet (mapInsert t ⟨t, lang⟩ m) t' = none := by
        intro t' ht'
        rw [mapGet_insert_ne t ⟨t, lang⟩ m t' (by
          intro hc
          exact hmem (hc ▸ ht'))]
        exact hfresh t' (List.mem_cons_of_mem t ht')
      rw [ih (mapInsert t ⟨t, lang⟩ m) hnd' hfresh',
        mapInsert_length t ⟨t, lang⟩ m (hfresh t (List.mem_cons_self t tys))]
      simp only [List.length_cons]
      omega

/-! ### Lemmas for the undeclared-reference bookkeeping -/

theorem insertAllGlobal_isSome_mono (lang : HostLang) (tys : List String)
    (m : List (String × ForeignBridgedType)) (n : String)
    (h : (mapGet m n).isSome = true) :
    (mapGet (insertAllGlobal lang m tys) n).isSome = true := by
  induction tys generalizing m with
  | nil => exact h
  | cons t tys ih =>
      have hstep : insertAllGlobal lang m (t :: tys) =
          insertAllGlobal lang (mapInsert t (.Opaque ⟨t, lang⟩) m) tys := rfl
      rw [hstep]
      exact ih _ (mapGet_insert_isSome t _ m n h)

theorem map_declared_not_undeclared (l : List String) :
    ∀ e ∈ l.map ParseError.declaredBuiltInType, isUndeclaredErr e = false := by
  intro e he
  obtain ⟨n, _, rfl⟩ := List.mem_map.mp he
  rfl

theorem map_undeclared_is_undeclared (l : List String) :
    ∀ e ∈ l.map ParseError.undeclaredType, isUndeclaredErr e = true := by
  intro e he
  obtain ⟨n, _, rfl⟩ := List.mem_map.mp he
  rfl

theorem exists_map_of_all_types (ts : List ForeignItem)
    (h : ∀ x ∈ ts, isTypeDecl x = true) :
    ∃ tys : List String, ts = tys.map ForeignItem.typeDecl := by
  induction ts with
  | nil => exact ⟨[], rfl⟩
  | cons a ts ih =>
      obtain ⟨tys, rfl⟩ := ih (fun x hx => h x (List.mem_cons_of_mem a hx))
      cases a with
      | typeDecl n => exact ⟨n :: tys, rfl⟩
      | fnDecl f => simpa [isTypeDecl] using h (.fnDecl f) (List.mem_cons_self _ _)
      | otherItem => simpa [isTypeDecl] using h .otherItem (List.mem_cons_self _ _)

theorem blockRefs_types_nil (tys : List String) :
    blockRefs (tys.map ForeignItem.typeDecl) = [] := by
  induction tys with
  | nil => rfl
  | cons t tys ih => simp [blockRefs, itemRefs] at ih ⊢

theorem blockRefs_perm (l1 l2 : List ForeignItem) (h : List.Perm l1 l2) :
    List.Perm (blockRefs l1) (blockRefs l2) :=
  (h.map itemRefs).flatten

theorem processItems_nonType (items : List ForeignItem) (lang : HostLang)
    (st : PState) (loc : List (String × OpaqueForeignType))
    (st2 : PState) (loc2 : List (String × OpaqueForeignType))
    (h : ∀ x ∈ items, isTypeDecl x = false)
    (hok : ForeignModParser.processItems lang (st, loc) items = .ok (st2, loc2)) :
    loc2 = loc ∧
    st2.all_type_declarations = st.all_type_declarations ∧
    st2.maybe_undeclared_types = st.maybe_undeclared_types ++
      ((blockRefs items).filter (pushCond st.all_type_declarations)) ∧
    ∃ de, st2.errors = st.errors ++ de ∧ ∀ e ∈ de, isUndeclaredErr e = false := by
  induction items generalizing st loc with
  | nil =>
      simp only [ForeignModParser.processItems, Except.ok.injEq] at hok
      obtain ⟨rfl, rfl⟩ : st = st2 ∧ loc = loc2 := by
        constructor
        · exact congrArg Prod.fst hok
        · exact congrArg Prod.snd hok
      exact ⟨rfl, rfl, by simp [blockRefs], [], by simp, by simp⟩
  | cons it rest ih =>
      have hit : isTypeDecl it = false := h it (List.mem_cons_self _ _)
      have hrest : ∀ x ∈ rest, isTypeDecl x = false :=
        fun x hx => h x (List.mem_cons_of_mem it hx)
      cases it with
      | typeDecl n => simp [isTypeDecl] at hit
      | otherItem =>
          simp only [ForeignModParser.processItems, processItem_otherItem] at hok
          obtain ⟨hl, hr, hmu, de, he, hde⟩ := ih st loc hrest hok
          exact ⟨hl, hr, by simpa [blockRefs, itemRefs] using hmu, de, he, hde⟩
      | fnDecl f =>
          simp only [ForeignModParser.processItems, processItem_fnDecl] at hok
          cases hG : gatCore st.all_type_declarations f.inputs.head? f
              f.attrs loc with
          | error e => rw [hG] at hok; exact absurd hok (by simp [Except.map])
          | ok p =>
              rw [hG] at hok
              simp only [Except.map] at hok
              obtain ⟨hl, hr, hmu, de, he, hde⟩ := ih _ loc hrest hok
              refine ⟨hl, by simpa using hr, ?_, ?_⟩
              · rw [hmu]
                simp [blockRefs, itemRefs, List.filter_append]
              · refine ⟨(if p.1 then [.ambiguousSelf] else []) ++ de, ?_, ?_⟩
                · rw [he]
                  simp
                · intro e he2
                  rcases List.mem_append.mp he2 with he2 | he2
                  · by_cases hp : p.1 <;> simp [hp] at he2
                    · subst he2
                      rfl
                  · exact hde e he2

theorem parse_block_spec (st : PState) (b : ItemForeignMod) (st2 : PState)
    (hok : ForeignModParser.parse st b = .ok st2) :
    (∀ n, (mapGet st.all_type_declarations n).isSome = true →
      (mapGet st2.all_type_declarations n).isSome = true) ∧
    ∃ dU de, st2.maybe_undeclared_types = st.maybe_undeclared_types ++ dU ∧
      List.Perm dU
        ((modBlockRefs b).filter (pushCond st2.all_type_declarations)) ∧
      st2.errors = st.errors ++ de ∧
      (∀ e ∈ de, isUndeclaredErr e = false) := by
  have hvalid : ∀ lang : HostLang,
      ForeignModParser.parseItemsWithLang st lang b.items = .ok st2 →
      (∀ n, (mapGet st.all_type_declarations n).isSome = true →
        (mapGet st2.all_type_declarations n).isSome = true) ∧
      ∃ dU de, st2.maybe_undeclared_types = st.maybe_undeclared_types ++ dU ∧
        List.Perm dU
          ((blockRefs b.items).filter (pushCond st2.all_type_declarations)) ∧
        st2.errors = st.errors ++ de ∧
        (∀ e ∈ de, isUndeclaredErr e = false) := by
    intro lang hw
    unfold ForeignModParser.parseItemsWithLang at hw
    cases hP : ForeignModParser.processItems lang (st, [])
        (sortItems b.items) with
    | error e => rw [hP] at hw; exact absurd hw (by simp)
    | ok acc =>
        rw [hP] at hw
        obtain ⟨w, locw⟩ := acc
        have hst2 : st2 = w := by
          have := hw
          simp at this
          exact this.symm
        subst hst2
        obtain ⟨ts, fs, hsorted, hts, hfs, hperm⟩ := sortItems_decomp b.items
        obtain ⟨tys, rfl⟩ := exists_map_of_all_types ts hts
        rw [hsorted, processItems_append,
          processItems_typeDecls tys lang st []] at hP
        obtain ⟨hl, hr, hmu, de, he, hde⟩ :=
          processItems_nonType fs lang _ _ _ _ hfs hP
        constructor
        · intro n hn
          rw [hr]
          exact insertAllGlobal_isSome_mono lang tys st.all_type_declarations
            n hn
        · refine ⟨(blockRefs fs).filter
            (pushCond (insertAllGlobal lang st.all_type_declarations tys)),
            (tys.filter builtInWithStr).map .declaredBuiltInType ++ de,
            ?_, ?_, ?_, ?_⟩
          · simpa using hmu
          · have hreg : st2.all_type_declarations =
                insertAllGlobal lang st.all_type_declarations tys := by
              simpa using hr
            rw [← hreg]
            have h1 : blockRefs (sortItems b.items) = blockRefs fs := by
              rw [hsorted]
              show ((tys.map ForeignItem.typeDecl ++ fs).map itemRefs).flatten =
                (fs.map itemRefs).flatten
              rw [List.map_append, List.flatten_append,
                show ((tys.map ForeignItem.typeDecl).map itemRefs).flatten =
                  ([] : List String) from blockRefs_types_nil tys]
              rfl
            have h2 : List.Perm (blockRefs fs) (blockRefs b.items) := by
              rw [← h1]
              exact blockRefs_perm _ _ (sortItems_perm b.items)
            exact h2.filter _
          · rw [he]
            simp
          · intro e he2
            rcases List.mem_append.mp he2 with h' | h'
            · exact map_declared_not_undeclared _ e h'
            · exact hde e h'
  cases hA : b.abiName with
  | none =>
      have hst2 : ({ st with errors := st.errors ++ [.abiNameMissing] } :
          PState) = st2 := by
        have := hok
        simp only [ForeignModParser.parse, hA] at this
        simpa using this
      subst hst2
      refine ⟨fun n hn => hn, [], [.abiNameMissing], by simp, ?_, by simp, ?_⟩
      · simp [modBlockRefs, hA]
      · intro e he2
        simp at he2
        subst he2
        rfl
  | some name =>
      by_cases hR : name = "Rust"
      · subst hR
        have hw : ForeignModParser.parseItemsWithLang st .rust b.items =
            .ok st2 := by
          have := hok
          simp only [ForeignModParser.parse, hA] at this
          exact this
        obtain ⟨hmono, dU, de, hmu, hperm, he, hde⟩ := hvalid .rust hw
        exact ⟨hmono, dU, de, hmu, by simpa [modBlockRefs, hA] using hperm,
          he, hde⟩
      · by_cases hS : name = "Swift"
        · subst hS
          have hw : ForeignModParser.parseItemsWithLang st .swift b.items =
              .ok st2 := by
            have := hok
            simp only [ForeignModParser.parse, hA] at this
            exact this
          obtain ⟨hmono, dU, de, hmu, hperm, he, hde⟩ := hvalid .swift hw
          exact ⟨hmono, dU, de, hmu, by simpa [modBlockRefs, hA] using hperm,
            he, hde⟩
        · have hst2 : ({ st with
              errors := st.errors ++ [.abiNameInvalid name] } : PState) =
              st2 := by
            have := hok
            simp only [ForeignModParser.parse, hA] at this
            simpa using this
          subst hst2
          refine ⟨fun n hn => hn, [], [.abiNameInvalid name], by simp, ?_,
            by simp, ?_⟩
          · simp [modBlockRefs, hA, hR, hS]
          · intro e he2
            simp at he2
            subst he2
            rfl

theorem parseBlocks_spec (bs : List ItemForeignMod) (st st2 : PState)
    (hok : parseBlocks st bs = .ok st2) :
    (∀ n, (mapGet st.all_type_declarations n).isSome = true →
      (mapGet st2.all_type_declarations n).isSome = true) ∧
    ∃ dU de, st2.maybe_undeclared_types = st.maybe_undeclared_types ++ dU ∧
      List.Perm
        (dU.filter (fun n => (mapGet st2.all_type_declarations n).isNone))
        ((moduleRefs bs).filter
          (fun n => !builtInWithStr n &&
            (mapGet st2.all_type_declarations n).isNone)) ∧
      st2.errors = st.errors ++ de ∧
      (∀ e ∈ de, isUndeclaredErr e = false) := by
  induction bs generalizing st with
  | nil =>
      have hst2 : st = st2 := by
        simpa [parseBlocks] using hok
      subst hst2
      exact ⟨fun n hn => hn, [], [], by simp, by simp [moduleRefs], by simp,
        by simp⟩
  | cons b bs ih =>
      simp only [parseBlocks] at hok
      cases hb : ForeignModParser.parse st b with
      | error e => rw [hb] at hok; exact absurd hok (by simp)
      | ok s1 =>
          rw [hb] at hok
          obtain ⟨hmono1, dU1, de1, hmu1, hperm1, he1, hde1⟩ :=
            parse_block_spec st b s1 hb
          obtain ⟨hmono2, dU2, de2, hmu2, hperm2, he2, hde2⟩ := ih s1 hok
          have hmono : ∀ n, (mapGet st.all_type_declarations n).isSome = true →
              (mapGet st2.all_type_declarations n).isSome = true :=
            fun n hn => hmono2 n (hmono1 n hn)
          have hlacks : ∀ n, (mapGet st2.all_type_declarations n).isNone = true →
              (mapGet s1.all_type_declarations n).isNone = true := by
            intro n hn
            by_cases hs : (mapGet s1.all_type_declarations n).isSome = true
            · have := hmono2 n hs
              rw [Option.isNone_iff_eq_none] at hn
              rw [hn] at this
              simp at this
            · cases hval : mapGet s1.all_type_declarations n with
              | none => simp
              | some v =>
                  exact absurd (by simp [hval] :
                    (mapGet s1.all_type_declarations n).isSome = true) hs
          refine ⟨hmono, dU1 ++ dU2, de1 ++ de2, ?_, ?_, ?_, ?_⟩
          · rw [hmu2, hmu1]
            simp
          · rw [List.filter_append]
            have hstep1 : List.Perm
                (dU1.filter
                  (fun n => (mapGet st2.all_type_declarations n).isNone))
                ((modBlockRefs b).filter
                  (fun n => !builtInWithStr n &&
                    (mapGet st2.all_type_declarations n).isNone)) := by
              have h1 := hperm1.filter
                (fun n => (mapGet st2.all_type_declarations n).isNone)
              rw [List.filter_filter] at h1
              have h2 : (modBlockRefs b).filter
                  (fun n => (mapGet st2.all_type_declarations n).isNone &&
                    pushCond s1.all_type_declarations n) =
                  (modBlockRefs b).filter
                  (fun n => !builtInWithStr n &&
                    (mapGet st2.all_type_declarations n).isNone) := by
                apply List.filter_congr
                intro n _
                cases h2n : mapGet st2.all_type_declarations n with
                | some v => simp [h2n, pushCond]
                | none =>
                    have hs1 : (mapGet s1.all_type_declarations n).isNone =
                        true := hlacks n (by simp [h2n])
                    simp [h2n, hs1, pushCond, Bool.and_comm]
              rw [h2] at h1
              exact h1
            rw [show moduleRefs (b :: bs) = modBlockRefs b ++ moduleRefs bs
              from rfl, List.filter_append]
            exact hstep1.append hperm2
          · rw [he2, he1]
            simp
          · intro e he
            rcases List.mem_append.mp he with h' | h'
            · exact hde1 e h'
            · exact hde2 e h'

/-! ### Claim theorems -/

/-- C1: the claim states that parsing never unwinds on a name-resolution
error — in particular for an explicitly typed receiver `self: T` with `T`
undeclared anywhere in the module, and for an `associated_to` attribute naming
an undeclared type — recording a diagnostic and continuing with the remaining
items instead. On the code this is false: `get_associated_type` resolves both
cases with `.unwrap()` on the registry lookup, so the parse panics
(`Except.error RustPanic.unwrapNone` in this embedding) and the remaining
blocks of the module (here a second block declaring `type Bar;`) are never
processed. -/
theorem c1_unresolved_receiver_panics :
    parseModule
        [⟨some "Rust",
          [.fnDecl ⟨"bar", ⟨none, false, none⟩,
            [.typed "self" (.path "Foo")], .default⟩]⟩,
         ⟨some "Rust", [.typeDecl "Bar"]⟩] = .error .unwrapNone ∧
    parseModule
        [⟨some "Rust",
          [.fnDecl ⟨"bar", ⟨some "Foo", false, none⟩, [], .default⟩]⟩,
         ⟨some "Rust", [.typeDecl "Bar"]⟩] = .error .unwrapNone :=
  ⟨rfl, rfl⟩

/-- C3: the claim states a round trip through
`convert_rust_expression_to_ffi_type` (outbound) and
`convert_ffi_value_to_rust_value` (inbound) for `Result<T, E>` at the
unit-unit, handle-unit and unit-handle combinations. On the code the outbound
conversion cannot even be generated for any of those combinations:
`syn::Ident::new(format!("Result{}{}", ...))` receives `Result()()`,
`ResultARustType()` resp. `Result()ARustType`, none of which is a valid
identifier, so the generator panics (and even where the identifier is valid,
the emitted match wraps the raw values with no `is_ok` discriminant and no
branch conversion, which the inbound `is_ok` dispatch does not consume). -/
theorem c3_result_outbound_generation_panics :
    BuiltInResult.convert_rust_expression_to_ffi_type ⟨.null, .null⟩
        "expression" = .error .identPanic ∧
    BuiltInResult.convert_rust_expression_to_ffi_type ⟨.Opaque "ARustType", .null⟩
        "expression" = .error .identPanic ∧
    BuiltInResult.convert_rust_expression_to_ffi_type ⟨.null, .Opaque "ARustType"⟩
        "expression" = .error .identPanic ∧
    BuiltInResult.convert_ffi_value_to_rust_value ⟨.null, .null⟩ "expression" =
      .ifIsOk "expression"
        (.stdResultOk (.nestedOkConversion .null "expression"))
        (.stdResultErr (.nestedErrConversion .null "expression")) :=
  ⟨rfl, rfl, rfl, rfl⟩

/-- C4 counterexample: the claim states that a type declaration colliding with
the built-in catalog is not registered in the module-wide registry. On the
code, `extern "Rust" { type u8; }` produces the (single) `DeclaredBuiltInType`
diagnostic but the name is registered anyway: registration is not guarded by
the collision check. -/
theorem c4_builtin_collision_still_registered :
    ∃ st, parseModule [⟨some "Rust", [.typeDecl "u8"]⟩] = .ok st ∧
      st.errors = [.declaredBuiltInType "u8"] ∧
      mapGet st.all_type_declarations "u8" =
        some (.Opaque ⟨"u8", .rust⟩) :=
  ⟨_, rfl, rfl, rfl⟩

/-- C7 counterexample: the claim states that in a two-block module with
`type Foo;` in one block and an initializer `fn make() -> Foo` in the other,
the parsed function's `associated_type` resolves to `Foo` regardless of which
block comes first. On the code, when the function's block is parsed before the
block declaring `Foo`, the registry lookup misses and the function record has
`is_initializer = true` but no associated type (and no diagnostic either). -/
theorem c7_initializer_fn_block_first_unresolved :
    ∃ st, parseModule
        [⟨some "Rust",
          [.fnDecl ⟨"make", ⟨none, true, none⟩, [], .ty (.path "Foo")⟩]⟩,
         ⟨some "Rust", [.typeDecl "Foo"]⟩] = .ok st ∧
      st.errors = [] ∧
      st.functions =
        [⟨⟨"make", ⟨none, true, none⟩, [], .ty (.path "Foo")⟩, none, true,
          .rust, none⟩] :=
  ⟨_, rfl, rfl, rfl⟩

/-- C7 (amended): in the two-block module, when the block declaring `type Foo;`
is parsed before the block containing the initializer `fn make() -> Foo`, the
parsed function record has `is_initializer = true` and its `associated_type`
resolves to `Foo` through the module-wide registry, across blocks. -/
theorem c7_initializer_type_block_first_resolves :
    ∃ st, parseModule
        [⟨some "Rust", [.typeDecl "Foo"]⟩,
         ⟨some "Rust",
          [.fnDecl ⟨"make", ⟨none, true, none⟩, [], .ty (.path "Foo")⟩]⟩] =
        .ok st ∧
      st.errors = [] ∧
      st.functions =
        [⟨⟨"make", ⟨none, true, none⟩, [], .ty (.path "Foo")⟩,
          some (.Opaque ⟨"Foo", .rust⟩), true, .rust, none⟩] :=
  ⟨_, rfl, rfl, rfl⟩

/-- C6: after the reordering pass every type declaration of a block precedes
every non-type item, for every block body; consequently a function may
reference a type declared later in source order in the same block — in the
concrete forward-reference block `fn a() -> Foo; type Foo;` the reference
resolves and parsing yields no diagnostic at all. -/
theorem c6_types_sorted_before_functions :
    (∀ items : List ForeignItem, typesBeforeRest (sortItems items)) ∧
    (∃ st, parseModule
        [⟨some "Rust",
          [.fnDecl ⟨"a", ⟨none, false, none⟩, [], .ty (.path "Foo")⟩,
           .typeDecl "Foo"]⟩] = .ok st ∧
      st.errors = []) := by
  constructor
  · intro items
    obtain ⟨ts, fs, h1, h2, h3, _⟩ := sortItems_decomp items
    exact ⟨ts, fs, h1, h2, h3⟩
  · exact ⟨_, rfl, rfl⟩

/-- C8: the generated host-side stub for a bridged function returning
`Option<T>` communicates presence through the side channel: it sets the flag
to `true` and returns the converted payload on `Some`, sets the flag to
`false` and returns a null reference on `None`, in both cases writing the flag
before returning; the generated client-side wrapper queries the side channel
right after the call and returns the wrapped payload when present and nil
otherwise, so the composition reproduces the original value. -/
theorem c8_option_side_channel (T : Type) (v : Option T) :
    optionRustStub v = [.setOptionReturn v.isSome, .returnValue v] ∧
    stubFinalFlag (optionRustStub v) = v.isSome ∧
    stubReturnedPayload (optionRustStub v) = v ∧
    bridgedOptionReturn v = .ok v := by
  cases v <;> exact ⟨rfl, rfl, rfl, rfl⟩

/-- C10: a function whose first parameter is an implicit receiver, in a block
declaring zero types, does not resolve silently: the exactly-one check fails
for zero local types exactly as for several, an `AmbiguousSelf` diagnostic is
recorded (exactly one), and the function record carries no associated type. -/
theorem c10_receiver_with_no_local_types (f : ForeignItemFn)
    (hfirst : f.inputs.head? = some .receiver) :
    ∃ st, parseModule [⟨some "Rust", [.fnDecl f]⟩] = .ok st ∧
      st.errors.count .ambiguousSelf = 1 ∧
      st.functions =
        [⟨f, none, f.attrs.is_initializer, .rust, f.attrs.swift_name⟩] := by
  have hpi : ForeignModParser.processItems .rust (initState, []) [.fnDecl f] =
      .ok
        (⟨[.ambiguousSelf], [],
          [⟨f, none, f.attrs.is_initializer, .rust, f.attrs.swift_name⟩],
          (fnRefs f).filter (pushCond [])⟩,
          []) := by
    simp only [ForeignModParser.processItems, processItem_fnDecl, hfirst]
    simp [gatCore, Except.map, initState]
  refine ⟨finalUndeclaredPass
      ⟨[.ambiguousSelf], [],
        [⟨f, none, f.attrs.is_initializer, .rust, f.attrs.swift_name⟩],
        (fnRefs f).filter (pushCond [])⟩, ?_, ?_, ?_⟩
  · unfold parseModule parseBlocks
    simp only [ForeignModParser.parse, ForeignModParser.parseItemsWithLang]
    rw [show sortItems [ForeignItem.fnDecl f] = [ForeignItem.fnDecl f] from rfl,
      hpi]
    rfl
  · simp [finalUndeclaredPass, List.count_append, count_amb_map_undeclared,
      List.count_cons]
  · simp [finalUndeclaredPass]

/-- C9: a block with no language tag yields exactly one `AbiNameMissing`
diagnostic and no function records from that block, while the other blocks of
the module still parse: inserting an untagged block anywhere in a module that
parses leaves the parsed functions and the registry unchanged and adds exactly
one `AbiNameMissing` to the diagnostics (up to permutation). -/
theorem c9_abi_name_missing_block (bs1 bs2 : List ItemForeignMod)
    (items : List ForeignItem) (st : PState)
    (h : parseModule (bs1 ++ bs2) = .ok st) :
    ∃ st2, parseModule (bs1 ++ ⟨none, items⟩ :: bs2) = .ok st2 ∧
      st2.functions = st.functions ∧
      st2.all_type_declarations = st.all_type_declarations ∧
      List.Perm st2.errors (.abiNameMissing :: st.errors) := by
  unfold parseModule at h ⊢
  cases h0 : parseBlocks initState (bs1 ++ bs2) with
  | error e => rw [h0] at h; exact absurd h (by simp)
  | ok st0 =>
      rw [h0] at h
      have hst : finalUndeclaredPass st0 = st := by
        simpa using h
      cases h1 : parseBlocks initState bs1 with
      | error e =>
          rw [parseBlocks_append, h1] at h0
          exact absurd h0 (by simp)
      | ok s1 =>
          have h0' : parseBlocks s1 bs2 = .ok st0 := by
            rw [← parseBlocks_append_ok bs1 bs2 initState s1 h1, h0]
          rw [parseBlocks_frame] at h0'
          cases hw : parseBlocks (zeroState s1.all_type_declarations) bs2 with
          | error e => rw [hw] at h0'; exact absurd h0' (by simp [Except.map])
          | ok w =>
              rw [hw] at h0'
              rw [show Except.map (combineState s1) (Except.ok w) =
                Except.ok (combineState s1 w) from rfl] at h0'
              have h0'' : combineState s1 w = st0 := by
                simpa using h0'
              have hgoal : parseBlocks initState
                  (bs1 ++ ⟨none, items⟩ :: bs2) =
                  .ok (combineState
                    { s1 with errors := s1.errors ++ [.abiNameMissing] } w) := by
                rw [parseBlocks_append_ok bs1 (⟨none, items⟩ :: bs2)
                  initState s1 h1]
                simp only [parseBlocks, parse_abiMissing]
                rw [parseBlocks_frame]
                have hr : ({ s1 with
                    errors := s1.errors ++ [.abiNameMissing] } :
                    PState).all_type_declarations =
                    s1.all_type_declarations := rfl
                rw [hr, hw]
                rfl
              rw [hgoal]
              refine ⟨_, rfl, ?_, ?_, ?_⟩
              · rw [← hst, ← h0'']
                simp [finalUndeclaredPass, combineState]
              · rw [← hst, ← h0'']
                simp [finalUndeclaredPass, combineState]
              · rw [← hst, ← h0'']
                simp only [finalUndeclaredPass, combineState]
                simp only [List.append_assoc, List.cons_append,
                  List.nil_append]
                exact List.perm_middle


/-- C4 (amended): a type declaration whose name collides with the Built-in
Type Catalog produces exactly one `DeclaredBuiltInType` diagnostic for that
declaration, but — contrary to the original claim — the colliding name is
nevertheless registered in both the module-wide registry (witnessed by the
successful lookup) and the block-local map (witnessed by a following `&self`
method of the same block resolving its receiver to that very type). -/
theorem c4_amended_builtin_collision (name : String)
    (hb : builtInWithStr name = true) :
    ∃ st, parseModule
        [⟨some "Rust",
          [.typeDecl name,
           .fnDecl ⟨"bar", ⟨none, false, none⟩, [.receiver], .default⟩]⟩] =
        .ok st ∧
      st.errors = [.declaredBuiltInType name] ∧
      mapGet st.all_type_declarations name = some (.Opaque ⟨name, .rust⟩) ∧
      st.functions =
        [⟨⟨"bar", ⟨none, false, none⟩, [.receiver], .default⟩,
          some (.Opaque ⟨name, .rust⟩), false, .rust, none⟩] := by
  have hsort : sortItems
      [ForeignItem.typeDecl name,
       ForeignItem.fnDecl ⟨"bar", ⟨none, false, none⟩, [.receiver], .default⟩] =
      [ForeignItem.typeDecl name,
       ForeignItem.fnDecl ⟨"bar", ⟨none, false, none⟩, [.receiver], .default⟩] :=
    sortItems_typesThenFn [name] ⟨"bar", ⟨none, false, none⟩, [.receiver], .default⟩
  have hpi : ForeignModParser.processItems .rust (initState, [])
      [.typeDecl name,
       .fnDecl ⟨"bar", ⟨none, false, none⟩, [.receiver], .default⟩] =
      .ok
        (⟨[.declaredBuiltInType name],
          mapInsert name (.Opaque ⟨name, .rust⟩) [],
          [⟨⟨"bar", ⟨none, false, none⟩, [.receiver], .default⟩,
            some (.Opaque ⟨name, .rust⟩), false, .rust, none⟩],
          []⟩,
          mapInsert name ⟨name, .rust⟩ []) := by
    simp only [ForeignModParser.processItems, processItem_typeDecl, hb,
      if_true, initState]
    simp only [processItem_fnDecl]
    simp [gatCore, Except.map, fnRefs, argRefs, mapInsert]
  refine ⟨finalUndeclaredPass
      ⟨[.declaredBuiltInType name],
        mapInsert name (.Opaque ⟨name, .rust⟩) [],
        [⟨⟨"bar", ⟨none, false, none⟩, [.receiver], .default⟩,
          some (.Opaque ⟨name, .rust⟩), false, .rust, none⟩],
        []⟩, ?_, ?_, ?_, ?_⟩
  · unfold parseModule parseBlocks
    simp only [ForeignModParser.parse, ForeignModParser.parseItemsWithLang]
    rw [hsort, hpi]
    rfl
  · simp [finalUndeclaredPass]
  · simp [finalUndeclaredPass, mapGet_insert_self]
  · simp [finalUndeclaredPass]

/-- Witness for C4's amended theorem at the concrete colliding name `u8`. -/
theorem c4_amended_builtin_collision_witness :
    ∃ st, parseModule
        [⟨some "Rust",
          [.typeDecl "u8",
           .fnDecl ⟨"bar", ⟨none, false, none⟩, [.receiver], .default⟩]⟩] =
        .ok st ∧
      st.errors = [.declaredBuiltInType "u8"] ∧
      mapGet st.all_type_declarations "u8" = some (.Opaque ⟨"u8", .rust⟩) ∧
      st.functions =
        [⟨⟨"bar", ⟨none, false, none⟩, [.receiver], .default⟩,
          some (.Opaque ⟨"u8", .rust⟩), false, .rust, none⟩] :=
  c4_amended_builtin_collision "u8" rfl

/-- C2: for a function whose first parameter is an implicit receiver, in a
block declaring the (distinct) types `tys`: when exactly one type is declared
in the block, resolution succeeds and the parsed function's `associated_type`
is that locally declared type, with no `AmbiguousSelf` diagnostic; when more
than one type is declared, resolution fails with exactly one `AmbiguousSelf`
diagnostic and the parsed function has no associated type. -/
theorem c2_implicit_receiver_resolution (t : String) (tys : List String)
    (f : ForeignItemFn) (hfirst : f.inputs.head? = some .receiver)
    (hnd : tys.Nodup) :
    (tys = [t] →
      ∃ st, parseModule
          [⟨some "Rust", tys.map .typeDecl ++ [.fnDecl f]⟩] = .ok st ∧
        st.functions =
          [⟨f, some (.Opaque ⟨t, .rust⟩), f.attrs.is_initializer, .rust,
            f.attrs.swift_name⟩] ∧
        st.errors.count .ambiguousSelf = 0) ∧
    (2 ≤ tys.length →
      ∃ st, parseModule
          [⟨some "Rust", tys.map .typeDecl ++ [.fnDecl f]⟩] = .ok st ∧
        st.functions =
          [⟨f, none, f.attrs.is_initializer, .rust, f.attrs.swift_name⟩] ∧
        st.errors.count .ambiguousSelf = 1) := by
  constructor
  · rintro rfl
    have hpi : ForeignModParser.processItems .rust (initState, [])
        ([t].map .typeDecl ++ [.fnDecl f]) =
        .ok
          (⟨([t].filter builtInWithStr).map .declaredBuiltInType,
            insertAllGlobal .rust [] [t],
            [⟨f, some (.Opaque ⟨t, .rust⟩), f.attrs.is_initializer, .rust,
              f.attrs.swift_name⟩],
            (fnRefs f).filter (pushCond (insertAllGlobal .rust [] [t]))⟩,
            insertAllLocal .rust [] [t]) := by
      rw [processItems_append]
      rw [processItems_typeDecls [t] .rust initState []]
      simp only [ForeignModParser.processItems, processItem_fnDecl, hfirst]
      have hloc : insertAllLocal HostLang.rust [] [t] = [(t, ⟨t, .rust⟩)] := rfl
      rw [hloc]
      simp [gatCore, Except.map, initState]
    refine ⟨finalUndeclaredPass
        ⟨([t].filter builtInWithStr).map .declaredBuiltInType,
          insertAllGlobal .rust [] [t],
          [⟨f, some (.Opaque ⟨t, .rust⟩), f.attrs.is_initializer, .rust,
            f.attrs.swift_name⟩],
          (fnRefs f).filter (pushCond (insertAllGlobal .rust [] [t]))⟩,
        ?_, ?_, ?_⟩
    · unfold parseModule parseBlocks
      simp only [ForeignModParser.parse, ForeignModParser.parseItemsWithLang]
      rw [sortItems_typesThenFn [t] f, hpi]
      rfl
    · simp [finalUndeclaredPass]
    · simp [finalUndeclaredPass, List.count_append, count_amb_map_undeclared,
        count_amb_map_declared]
  · intro hlen2
    have hfresh : ∀ t' ∈ tys, mapGet ([] : List (String × OpaqueForeignType)) t' =
        none := by
      intro t' _
      rfl
    have hlen : (insertAllLocal .rust [] tys).length = tys.length := by
      rw [insertAllLocal_length .rust tys [] hnd hfresh]
      simp
    obtain ⟨x, y, rest, hloc⟩ :
        ∃ x y rest, insertAllLocal HostLang.rust [] tys = x :: y :: rest := by
      cases hl : insertAllLocal HostLang.rust [] tys with
      | nil => rw [hl] at hlen; simp at hlen; omega
      | cons x l2 =>
          cases l2 with
          | nil => rw [hl] at hlen; simp at hlen; omega
          | cons y rest => exact ⟨x, y, rest, rfl⟩
    have hpi : ForeignModParser.processItems .rust (initState, [])
        (tys.map .typeDecl ++ [.fnDecl f]) =
        .ok
          (⟨(tys.filter builtInWithStr).map .declaredBuiltInType ++
              [.ambiguousSelf],
            insertAllGlobal .rust [] tys,
            [⟨f, none, f.attrs.is_initializer, .rust, f.attrs.swift_name⟩],
            (fnRefs f).filter (pushCond (insertAllGlobal .rust [] tys))⟩,
            insertAllLocal .rust [] tys) := by
      rw [processItems_append]
      rw [processItems_typeDecls tys .rust initState []]
      simp only [ForeignModParser.processItems, processItem_fnDecl, hfirst]
      rw [hloc]
      simp [gatCore, Except.map, initState]
    refine ⟨finalUndeclaredPass
        ⟨(tys.filter builtInWithStr).map .declaredBuiltInType ++
            [.ambiguousSelf],
          insertAllGlobal .rust [] tys,
          [⟨f, none, f.attrs.is_initializer, .rust, f.attrs.swift_name⟩],
          (fnRefs f).filter (pushCond (insertAllGlobal .rust [] tys))⟩,
        ?_, ?_, ?_⟩
    · unfold parseModule parseBlocks
      simp only [ForeignModParser.parse, ForeignModParser.parseItemsWithLang]
      rw [sortItems_typesThenFn tys f, hpi]
      rfl
    · simp [finalUndeclaredPass]
    · simp [finalUndeclaredPass, List.count_append, count_amb_map_undeclared,
        count_amb_map_declared, List.count_cons]

/-- Witness for C2 at a concrete block: `type SomeType; fn bar(&self);` — the
single locally declared type is inferred as the receiver's type. -/
theorem c2_implicit_receiver_resolution_witness :
    ∃ st, parseModule
        [⟨some "Rust",
          [.typeDecl "SomeType",
           .fnDecl ⟨"bar", ⟨none, false, none⟩, [.receiver], .default⟩]⟩] =
        .ok st ∧
      st.functions =
        [⟨⟨"bar", ⟨none, false, none⟩, [.receiver], .default⟩,
          some (.Opaque ⟨"SomeType", .rust⟩), false, .rust, none⟩] ∧
      st.errors.count .ambiguousSelf = 0 :=
  (c2_implicit_receiver_resolution "SomeType" ["SomeType"]
      ⟨"bar", ⟨none, false, none⟩, [.receiver], .default⟩ rfl
      (by simp)).1 rfl

/-- Witness for C10 at a concrete block: `extern "Rust" { fn a(&self); }` with
zero locally declared types. -/
theorem c10_receiver_with_no_local_types_witness :
    ∃ st, parseModule
        [⟨some "Rust",
          [.fnDecl ⟨"a", ⟨none, false, none⟩, [.receiver], .default⟩]⟩] =
        .ok st ∧
      st.errors.count .ambiguousSelf = 1 ∧
      st.functions =
        [⟨⟨"a", ⟨none, false, none⟩, [.receiver], .default⟩, none, false,
          .rust, none⟩] :=
  c10_receiver_with_no_local_types
    ⟨"a", ⟨none, false, none⟩, [.receiver], .default⟩ rfl

/-- Witness for C9 at the concrete one-block module whose only block is
untagged, inserted into the empty module. -/
theorem c9_abi_name_missing_block_witness :
    ∃ st2, parseModule [⟨none, [.typeDecl "Foo"]⟩] = .ok st2 ∧
      st2.functions = initState.functions ∧
      st2.all_type_declarations = initState.all_type_declarations ∧
      List.Perm st2.errors (.abiNameMissing :: initState.errors) :=
  c9_abi_name_missing_block [] [] [.typeDecl "Foo"] initState rfl

/-- C5: for a module that parses without panicking, the `UndeclaredType`
diagnostics are, as a multiset, exactly one diagnostic per reference
(parameter type or return type occurrence) whose name resolves neither to the
Built-in Type Catalog nor to any entry of the final module-wide registry, each
diagnostic naming that very identifier — so multiple occurrences of the same
undeclared name each produce an independent diagnostic. -/
theorem c5_undeclared_type_diagnostics (bs : List ItemForeignMod) (st : PState)
    (h : parseModule bs = .ok st) :
    List.Perm (st.errors.filter isUndeclaredErr)
      (((moduleRefs bs).filter
          (fun n => !builtInWithStr n &&
            (mapGet st.all_type_declarations n).isNone)).map
        ParseError.undeclaredType) := by
  unfold parseModule at h
  cases h0 : parseBlocks initState bs with
  | error e => rw [h0] at h; exact absurd h (by simp)
  | ok st0 =>
      rw [h0] at h
      have hst : finalUndeclaredPass st0 = st := by simpa using h
      obtain ⟨hmono, dU, de, hmu, hperm, he, hde⟩ :=
        parseBlocks_spec bs initState st0 h0
      have hmu' : st0.maybe_undeclared_types = dU := by simpa using hmu
      have he' : st0.errors = de := by simpa using he
      have hreg : st.all_type_declarations = st0.all_type_declarations := by
        rw [← hst]
        rfl
      have herr : st.errors = de ++
          ((dU.filter
            (fun n => (mapGet st0.all_type_declarations n).isNone)).map
            ParseError.undeclaredType) := by
        rw [← hst]
        simp [finalUndeclaredPass, hmu', he']
      rw [herr, hreg, List.filter_append]
      have hde' : de.filter isUndeclaredErr = [] :=
        List.filter_eq_nil_iff.mpr (by
          intro e he2
          simp [hde e he2])
      have hkeep : ((dU.filter
          (fun n => (mapGet st0.all_type_declarations n).isNone)).map
          ParseError.undeclaredType).filter isUndeclaredErr =
          (dU.filter
            (fun n => (mapGet st0.all_type_declarations n).isNone)).map
            ParseError.undeclaredType :=
        List.filter_eq_self.mpr (map_undeclared_is_undeclared _)
      rw [hde', hkeep]
      simpa using hperm.map ParseError.undeclaredType

/-- Witness for C5 at the concrete module
`extern "Rust" { type Foo; fn bar(bazz: Bar, other: Bar); }` with `Bar`
undeclared: the two occurrences yield exactly two `UndeclaredType`
diagnostics, each naming `Bar`. -/
theorem c5_undeclared_type_diagnostics_witness :
    ∃ st, parseModule
        [⟨some "Rust",
          [.typeDecl "Foo",
           .fnDecl ⟨"bar", ⟨none, false, none⟩,
             [.typed "bazz" (.path "Bar"), .typed "other" (.path "Bar")],
             .default⟩]⟩] = .ok st ∧
      List.Perm (st.errors.filter isUndeclaredErr)
        (((moduleRefs
            [⟨some "Rust",
              [.typeDecl "Foo",
               .fnDecl ⟨"bar", ⟨none, false, none⟩,
                 [.typed "bazz" (.path "Bar"), .typed "other" (.path "Bar")],
                 .default⟩]⟩]).filter
            (fun n => !builtInWithStr n &&
              (mapGet st.all_type_declarations n).isNone)).map
          ParseError.undeclaredType) ∧
      st.errors = [.undeclaredType "Bar", .undeclaredType "Bar"] :=
  ⟨_, rfl, c5_undeclared_type_diagnostics _ _ rfl, rfl⟩

/-- Witness for C6 at a concrete mixed block: the sorted order of
`fn a(); type Foo;` has the type declaration first. -/
theorem c6_types_sorted_before_functions_witness :
    typesBeforeRest (sortItems
      [.fnDecl ⟨"a", ⟨none, false, none⟩, [], .default⟩, .typeDecl "Foo"]) :=
  c6_types_sorted_before_functions.1 _

/-- Witness for C8 at the concrete payload `some 5 : Option Nat`. -/
theorem c8_option_side_channel_witness :
    optionRustStub (some (5 : Nat)) =
        [.setOptionReturn true, .returnValue (some 5)] ∧
      stubFinalFlag (optionRustStub (some (5 : Nat))) = true ∧
      stubReturnedPayload (optionRustStub (some (5 : Nat))) = some 5 ∧
      bridgedOptionReturn (some (5 : Nat)) = .ok (some 5) :=
  c8_option_side_channel Nat (some 5)

end SwiftBridge
